import Mathlib

/-!
Verification development for the Ccv guest-registry application.

The repository's algorithmic core is the Italian fiscal-code computation.
The web layer (`src/app.py`) and the data model (`src/models.py`) are in the
repository; the fiscal-code module itself (`fiscal_code.py`, imported at
`app.py:65` and called at `app.py:606`) is not present under `src/`, so the
core's functions are modelled from the specification (each such definition
says so in its doc comment).  The Flask route handlers and the `Guest`
construction are embedded directly from `src/app.py`.
-/

namespace Ccv

/-! ## Characters -/

/-- `c` is an uppercase ASCII letter `A`–`Z`. -/
def isUpperAZ (c : Char) : Bool :=
  65 ≤ c.toNat && c.toNat ≤ 90

/-- `c` is an ASCII digit `0`–`9`. -/
def isDigit09 (c : Char) : Bool :=
  48 ≤ c.toNat && c.toNat ≤ 57

/-- `c` is in `[A-Z0-9]`. -/
def isAlnumChar (c : Char) : Bool :=
  isDigit09 c || isUpperAZ c

/-- The five vowels of the fiscal-code alphabet. -/
def isVowelAZ (c : Char) : Bool :=
  c == 'A' || c == 'E' || c == 'I' || c == 'O' || c == 'U'

/-- An uppercase letter that is not a vowel. -/
def isConsonantAZ (c : Char) : Bool :=
  isUpperAZ c && !(isVowelAZ c)

/-- Map a lowercase ASCII letter to its uppercase form; leave an uppercase
letter unchanged; drop every other character. -/
def toUpperAZ (c : Char) : Option Char :=
  if 97 ≤ c.toNat && c.toNat ≤ 122 then some (Char.ofNat (c.toNat - 32))
  else if isUpperAZ c then some c
  else none

/-! ## Name encoder (spec §4.1) -/

/-- Modelled from the spec: `fiscal_code.py` is absent from `src/`.
Spec §4.1: "normalize input to uppercase, strip whitespace/punctuation/
diacritics, keep only letters A–Z."  Characters outside the letter range are
dropped; lowercase letters are uppercased. -/
def normalize_name (s : String) : List Char :=
  s.data.filterMap toUpperAZ

/-- The consonants of a normalized name, in left-to-right order. -/
def consonantsOf (l : List Char) : List Char :=
  l.filter (fun c => !(isVowelAZ c))

/-- The vowels of a normalized name, in left-to-right order. -/
def vowelsOf (l : List Char) : List Char :=
  l.filter isVowelAZ

/-- Consonants first, then vowels, truncated to 3 and padded with `X` on the
right to reach 3 characters (spec §4.1 surname rule). -/
def take3padX (cons vows : List Char) : List Char :=
  let cv := (cons ++ vows).take 3
  cv ++ List.replicate (3 - cv.length) 'X'

/-- The typed failures of the fiscal-code core (spec §7). -/
inductive Error where
  | emptyName
  | unknownPlace
  | invalidDate
  | invalidFormat
  | checksumMismatch
  | codeSpaceExhausted
  deriving DecidableEq, Repr

deriving instance DecidableEq for Except

/-- All six error kinds, for exhaustiveness statements. -/
def Error.allKinds : List Error :=
  [.emptyName, .unknownPlace, .invalidDate, .invalidFormat,
   .checksumMismatch, .codeSpaceExhausted]

/-- Modelled from the spec (§4.1, `fiscal_code.py` absent): surname code —
consonants left to right, then vowels, then pad with `X`; an empty normalized
name is `EmptyNameError`. -/
def encode_surname (s : String) : Except Error (List Char) :=
  if (normalize_name s).isEmpty then .error .emptyName
  else
    .ok (take3padX (consonantsOf (normalize_name s)) (vowelsOf (normalize_name s)))

/-- Modelled from the spec (§4.1, `fiscal_code.py` absent): given-name code —
same rule as the surname, except that with 4 or more consonants the 1st, 3rd
and 4th consonant are used (the 2nd is skipped). -/
def encode_given_name (s : String) : Except Error (List Char) :=
  if (normalize_name s).isEmpty then .error .emptyName
  else if 4 ≤ (consonantsOf (normalize_name s)).length then
    .ok [(consonantsOf (normalize_name s)).getD 0 'X',
         (consonantsOf (normalize_name s)).getD 2 'X',
         (consonantsOf (normalize_name s)).getD 3 'X']
  else
    .ok (take3padX (consonantsOf (normalize_name s)) (vowelsOf (normalize_name s)))

/-! ## Dates and the date/sex encoder (spec §4.2) -/

/-- A calendar date (year, month, day), all as naturals. -/
structure Date where
  year : Nat
  month : Nat
  day : Nat
  deriving DecidableEq, Repr

/-- Gregorian leap year. -/
def isLeap (y : Nat) : Bool :=
  y % 4 == 0 && (y % 100 != 0 || y % 400 == 0)

/-- Days in a Gregorian month. -/
def daysInMonth (y m : Nat) : Nat :=
  match m with
  | 1 => 31 | 2 => if isLeap y then 29 else 28 | 3 => 31
  | 4 => 30 | 5 => 31 | 6 => 30 | 7 => 31 | 8 => 31
  | 9 => 30 | 10 => 31 | 11 => 30 | 12 => 31
  | _ => 0

/-- The date is a valid Gregorian calendar date. -/
def validDate (d : Date) : Bool :=
  1 ≤ d.month && d.month ≤ 12 && 1 ≤ d.day && d.day ≤ daysInMonth d.year d.month

/-- Sex of the person, a two-variant tagged type (spec §3, §9). -/
inductive Sex where
  | male
  | female
  deriving DecidableEq, Repr

/-- Modelled from the spec (§4.2): the fixed month-letter table. -/
def monthLetter (m : Nat) : Char :=
  match m with
  | 1 => 'A' | 2 => 'B' | 3 => 'C' | 4 => 'D' | 5 => 'E' | 6 => 'H'
  | 7 => 'L' | 8 => 'M' | 9 => 'P' | 10 => 'R' | 11 => 'S' | 12 => 'T'
  | _ => 'X'

/-- The twelve valid month letters, in month order (spec §4.2, §4.7). -/
def monthLetters : List Char :=
  ['A', 'B', 'C', 'D', 'E', 'H', 'L', 'M', 'P', 'R', 'S', 'T']

/-- The digit character for `n ≤ 9`. -/
def digitChar (n : Nat) : Char :=
  match n with
  | 0 => '0' | 1 => '1' | 2 => '2' | 3 => '3' | 4 => '4'
  | 5 => '5' | 6 => '6' | 7 => '7' | 8 => '8' | 9 => '9'
  | _ => 'X'

/-- Zero-padded two-digit rendering of `n` (intended for `n ≤ 99`). -/
def pad2 (n : Nat) : List Char :=
  if n < 10 then ['0', digitChar n] else [digitChar (n / 10), digitChar (n % 10)]

/-- The numeric value of a two-character digit field, e.g. the day field at
positions 10–11 of a fiscal code. -/
def twoDigitVal (l : List Char) : Nat :=
  10 * ((l.getD 0 '0').toNat - 48) + ((l.getD 1 '0').toNat - 48)

/-- Modelled from the spec (§4.2): last two digits of the year, zero-padded. -/
def yearCode (d : Date) : List Char :=
  pad2 (d.year % 100)

/-- Modelled from the spec (§4.2): day-of-month zero-padded to two digits,
with 40 added first when the sex is Female. -/
def dayCode (sex : Sex) (day : Nat) : List Char :=
  match sex with
  | .male => pad2 day
  | .female => pad2 (day + 40)

/-! ## Checksum calculator (spec §4.5) -/

/-- Modelled from the spec (§4.5): the official ODD-position substitution
table over the 36 symbols `0`–`9`, `A`–`Z`; any other character maps to 0. -/
def oddValue (c : Char) : Nat :=
  match c with
  | '0' => 1 | '1' => 0 | '2' => 5 | '3' => 7 | '4' => 9
  | '5' => 13 | '6' => 15 | '7' => 17 | '8' => 19 | '9' => 21
  | 'A' => 1 | 'B' => 0 | 'C' => 5 | 'D' => 7 | 'E' => 9
  | 'F' => 13 | 'G' => 15 | 'H' => 17 | 'I' => 19 | 'J' => 21
  | 'K' => 2 | 'L' => 4 | 'M' => 18 | 'N' => 20 | 'O' => 11
  | 'P' => 3 | 'Q' => 6 | 'R' => 8 | 'S' => 12 | 'T' => 14
  | 'U' => 16 | 'V' => 10 | 'W' => 22 | 'X' => 25 | 'Y' => 24
  | 'Z' => 23
  | _ => 0

/-- Modelled from the spec (§4.5): the official EVEN-position table — a digit
maps to its face value, a letter to its alphabet index; others map to 0. -/
def evenValue (c : Char) : Nat :=
  if isDigit09 c then c.toNat - 48
  else if isUpperAZ c then c.toNat - 65
  else 0

/-- The remainder-to-letter table `A=0 … Z=25` (spec §4.5); out-of-range
remainders map to `A` (never reached: input is always taken mod 26). -/
def remLetter (n : Nat) : Char :=
  match n with
  | 0 => 'A' | 1 => 'B' | 2 => 'C' | 3 => 'D' | 4 => 'E' | 5 => 'F'
  | 6 => 'G' | 7 => 'H' | 8 => 'I' | 9 => 'J' | 10 => 'K' | 11 => 'L'
  | 12 => 'M' | 13 => 'N' | 14 => 'O' | 15 => 'P' | 16 => 'Q' | 17 => 'R'
  | 18 => 'S' | 19 => 'T' | 20 => 'U' | 21 => 'V' | 22 => 'W' | 23 => 'X'
  | 24 => 'Y' | 25 => 'Z'
  | _ => 'A'

/-- Sum of the positional substitution values of a character list, the first
character sitting at position `pos` (positions are 1-based, spec §4.5). -/
def checksumSum : List Char → Nat → Nat
  | [], _ => 0
  | c :: rest, pos =>
      (if pos % 2 = 1 then oddValue c else evenValue c) + checksumSum rest (pos + 1)

/-- Modelled from the spec (§4.5): the check character of a 15-character
core — positional values summed, mod 26, mapped through `remLetter`. -/
def checkChar (core : List Char) : Char :=
  remLetter (checksumSum core 1 % 26)

/-! ## Place code table (spec §4.3) -/

/-- Municipality vs foreign-country namespace of a place code (spec §3). -/
inductive PlaceKind where
  | municipality
  | foreignCountry
  deriving DecidableEq, Repr

/-- A row of the place-code reference table (spec §3). -/
structure PlaceCodeEntry where
  name : String
  code : String
  kind : PlaceKind
  deriving DecidableEq, Repr

/-- Modelled from the spec (§4.3): case/diacritic-insensitive lookup in the
requested namespace; the same normalization as for names realises the
insensitive match. -/
def lookup (table : List PlaceCodeEntry) (name : String) (isForeign : Bool) :
    Option PlaceCodeEntry :=
  let wanted : PlaceKind := if isForeign then .foreignCountry else .municipality
  table.find? (fun e => e.kind == wanted && normalize_name e.name == normalize_name name)

/-- Modelled from the spec: lookup across both namespaces, used by the
five-argument entry point (which has no foreign-birth flag, spec §9). -/
def lookup_any (table : List PlaceCodeEntry) (name : String) :
    Option PlaceCodeEntry :=
  table.find? (fun e => normalize_name e.name == normalize_name name)

/-- Modelled from the spec: representative rows of the reference place table
(the data file is not under `src/`).  `ROMA → H501` is the Municipality entry
named in spec §8; the others are further official Belfiore-style codes. -/
def placeTable : List PlaceCodeEntry :=
  [⟨"ROMA", "H501", .municipality⟩,
   ⟨"MILANO", "F205", .municipality⟩,
   ⟨"NAPOLI", "F839", .municipality⟩,
   ⟨"FRANCIA", "Z110", .foreignCountry⟩,
   ⟨"NIGERIA", "Z335", .foreignCountry⟩]

/-! ## Composer and entry points (spec §4.4, §6) -/

/-- Append the recomputed check character to a 15-character core
(spec §4.5–§4.6). -/
def withChecksum (core : List Char) : String :=
  String.mk (core ++ [checkChar core])

/-- A person's input record (spec §3). -/
structure PersonInput where
  last_name : String
  first_name : String
  sex : Sex
  birth_date : Date
  birth_place : String
  is_foreign_birth : Bool

/-- Modelled from the spec (§4.4–§4.5): build the 15-character core from the
already-resolved place code and append the check character. -/
def mkCode (last first : String) (sex : Sex) (d : Date) (placeCode : String) :
    Except Error String :=
  match encode_surname last with
  | .error e => .error e
  | .ok s =>
    match encode_given_name first with
    | .error e => .error e
    | .ok g =>
      if validDate d then
        .ok (withChecksum (s ++ g ++ yearCode d ++ [monthLetter d.month] ++
          dayCode sex d.day ++ placeCode.data))
      else .error .invalidDate

/-- Modelled from the spec (§6): `compute_fiscal_code` over a `PersonInput`,
with the place table passed as an explicit read-only dependency (spec §9). -/
def compute_fiscal_code (table : List PlaceCodeEntry) (p : PersonInput) :
    Except Error String :=
  match lookup table p.birth_place p.is_foreign_birth with
  | some e => mkCode p.last_name p.first_name p.sex p.birth_date e.code
  | none => .error .unknownPlace

/-- Modelled from the spec: the entry point as actually invoked at
`app.py:606` and described in spec §9 — five descriptive fields, no
foreign-birth flag, the gender as the one-character string of
`models.py` (`M` or `F`), the place looked up across both namespaces
of the process-wide table. -/
def calculate_fiscal_code (last first gender : String) (bdate : Date)
    (place : String) : Except Error String :=
  match lookup_any placeTable place with
  | some e =>
      mkCode last first (if gender == "F" then .female else .male) bdate e.code
  | none => .error .unknownPlace

/-- The five parameters of `calculate_fiscal_code`, in the positional order
of the call at `app.py:606`. -/
def calculate_fiscal_code_params : List String :=
  ["last_name", "first_name", "gender", "birth_date", "birth_place"]

/-! ## Validator (spec §4.5, §4.7) -/

/-- Outcome of `validate_fiscal_code` (spec §6). -/
inductive ValidationResult where
  | ok
  | invalidFormatError
  | checksumMismatchError
  deriving DecidableEq, Repr

/-- Modelled from the spec (§4.7): shape check — length exactly 16, characters
in `[A-Z0-9]`, valid month letter at position 9 — then checksum comparison.
Any shape violation is `InvalidFormatError`; a shape-valid code whose 16th
character differs from the recomputed checksum is `ChecksumMismatchError`. -/
def validate_fiscal_code (code : String) : ValidationResult :=
  let l := code.data
  if l.length = 16 ∧ l.all isAlnumChar = true ∧
      monthLetters.contains (l.getD 8 '0') = true then
    if l.getD 15 '0' = checkChar (l.take 15) then .ok
    else .checksumMismatchError
  else .invalidFormatError

/-! ## Omocodia resolver (spec §4.6) -/

/-- Modelled from the spec (§4.6): the fixed omocodia digit→letter table;
non-digits are left unchanged. -/
def omocodiaSub (c : Char) : Char :=
  match c with
  | '0' => 'L' | '1' => 'M' | '2' => 'N' | '3' => 'P' | '4' => 'Q'
  | '5' => 'R' | '6' => 'S' | '7' => 'T' | '8' => 'U' | '9' => 'V'
  | _ => c

/-- The digit positions of a 15-character core, scanned from position 15 down
to position 1 (0-based indices 14 down to 0, spec §4.6). -/
def digitPositionsDesc (core : List Char) : List Nat :=
  [14, 13, 12, 11, 10, 9, 8, 7, 6, 5, 4, 3, 2, 1, 0].filter
    (fun i => isDigit09 (core.getD i 'A'))

/-- One substitution per remaining digit position, cumulatively, re-testing
membership after each; exhausting the positions is the defined failure. -/
def disambiguateLoop (is_taken : String → Bool) :
    List Char → List Nat → Except Error String
  | _, [] => .error .codeSpaceExhausted
  | core, p :: rest =>
    if is_taken (withChecksum (core.set p (omocodiaSub (core.getD p 'A')))) then
      disambiguateLoop is_taken (core.set p (omocodiaSub (core.getD p 'A'))) rest
    else .ok (withChecksum (core.set p (omocodiaSub (core.getD p 'A'))))

/-- Modelled from the spec (§4.6): return the candidate unchanged when it is
free; otherwise substitute digit positions from position 15 downwards,
recomputing the checksum each time, until the code is free or the digit
positions are exhausted (`CodeSpaceExhaustedError`). -/
def disambiguate (candidate : String) (is_taken : String → Bool) :
    Except Error String :=
  if is_taken candidate then
    let core := candidate.data.take 15
    disambiguateLoop is_taken core (digitPositionsDesc core)
  else .ok candidate

/-! ## Date parsing (`datetime.strptime(s, '%Y-%m-%d')` in `src/app.py`) -/

/-- The numeric value of a digit-character list. -/
def digitsVal (l : List Char) : Nat :=
  l.foldl (fun a c => a * 10 + (c.toNat - 48)) 0

/-- A non-empty all-digit character list parsed as a natural number. -/
def toNatDigits (l : List Char) : Option Nat :=
  if !l.isEmpty && l.all isDigit09 then some (digitsVal l)
  else none

/-- Split a character list at each dash. -/
def splitDash : List Char → List (List Char)
  | [] => [[]]
  | c :: rest =>
    if c == '-' then [] :: splitDash rest
    else
      match splitDash rest with
      | h :: t => (c :: h) :: t
      | [] => [[c]]

/-- The `str(e)` text of the `ValueError` CPython's `strptime` raises when the
input does not match the `%Y-%m-%d` format. -/
def strptimeErrMsg (s : String) : String :=
  "time data '" ++ s ++ "' does not match format '%Y-%m-%d'"

/-- Model of CPython's `datetime.strptime(s, '%Y-%m-%d')` as used at
`app.py:147/605`: three dash-separated digit groups (year up to 4 digits,
month and day up to 2, months 1–12, days 1–31), with the calendar range check
on the day; failures carry the stringified `ValueError` message. -/
def strptimeYmd (s : String) : Except String Date :=
  match splitDash s.data with
  | [ys, ms, ds] =>
    match toNatDigits ys, toNatDigits ms, toNatDigits ds with
    | some y, some m, some d =>
      if ys.length ≤ 4 ∧ ms.length ≤ 2 ∧ ds.length ≤ 2 ∧
          1 ≤ m ∧ m ≤ 12 ∧ 1 ≤ d ∧ d ≤ 31 then
        if d ≤ daysInMonth y m then .ok ⟨y, m, d⟩
        else .error "day is out of range for month"
      else .error (strptimeErrMsg s)
    | _, _, _ => .error (strptimeErrMsg s)
  | _ => .error (strptimeErrMsg s)

/-! ## The `/calculate_fiscal_code` route (`app.py:591-609`) -/

/-- The JSON body of a request to `/calculate_fiscal_code`; a `none` field is
an absent key (`data.get(k, '')` then yields `''`). -/
structure CalcRequest where
  last_name : Option String
  first_name : Option String
  gender : Option String
  birth_date : Option String
  birth_place : Option String

/-- The JSON body the handler returns: either `{'fiscal_code': …}` or
`{'error': …}`. -/
inductive CalcResponse where
  | fiscalCode (code : String)
  | err (message : String)
  deriving DecidableEq, Repr

/-- The type of the fiscal-code core as called at `app.py:606`. -/
def CoreFn : Type :=
  String → String → String → Date → String → Except Error String

/-- The literal message of `app.py:602`. -/
def missingDataMsg : String :=
  "Dati mancanti per il calcolo del codice fiscale"

/-- Modelled from the spec: the `str(e)` text of a typed core failure when it
crosses the handler's generic `except Exception` at `app.py:608-609`
(`fiscal_code.py` is absent; the spec's §7 kind names are used). -/
def pyErrStr : Error → String
  | .emptyName => "EmptyNameError"
  | .unknownPlace => "UnknownPlaceError"
  | .invalidDate => "InvalidDateError"
  | .invalidFormat => "InvalidFormatError"
  | .checksumMismatch => "ChecksumMismatchError"
  | .codeSpaceExhausted => "CodeSpaceExhaustedError"

/-- The handler of `/calculate_fiscal_code` (`app.py:592-609`), parametrised
by the fiscal-code core it invokes at line 606: read each field with default
`''`, reject when any is falsy, then parse the date and call the core inside
the `try`/`except Exception` block, stringifying any failure into the
`'error'` key. -/
def calc_fiscal_code (core : CoreFn) (req : CalcRequest) : CalcResponse :=
  if req.last_name.getD "" = "" ∨ req.first_name.getD "" = "" ∨
      req.gender.getD "" = "" ∨ req.birth_date.getD "" = "" ∨
      req.birth_place.getD "" = "" then
    .err missingDataMsg
  else
    match strptimeYmd (req.birth_date.getD "") with
    | .error m => .err m
    | .ok d =>
      match core (req.last_name.getD "") (req.first_name.getD "")
          (req.gender.getD "") d (req.birth_place.getD "") with
      | .ok fc => .fiscalCode fc
      | .error e => .err (pyErrStr e)

/-! ## Session gating (`app.py:71-78` and the route decorators) -/

/-- The Flask session, reduced to the one key the decorator inspects:
`logged_in` is `true` exactly when `'logged_in' in session`. -/
structure Session where
  logged_in : Bool

/-- A route's observable response.  `redirect` carries the target endpoint;
`page` carries the rendered template name; `json` carries the JSON body. -/
inductive HttpResponse where
  | redirect (endpoint : String)
  | page (template : String)
  | json (body : CalcResponse)
  deriving DecidableEq, Repr

/-- The `login_required` decorator (`app.py:71-78`): when `'logged_in'` is
absent from the session, flash and redirect to the login endpoint; otherwise
run the wrapped view.  (The flash message is a UI side channel and is not part
of the response value.) -/
def login_required (f : Session → HttpResponse) (s : Session) : HttpResponse :=
  if s.logged_in then f s else .redirect "login"

/-- `/dashboard` (`app.py:112-128`); the view body is embedded up to its
rendered template, since the claims concern only the authentication gate. -/
def dashboard_route (s : Session) : HttpResponse :=
  login_required (fun _ => .page "dashboard.html") s

/-- `/new_guest` (`app.py:130-187`), gate-level embedding (GET rendering). -/
def new_guest_route (s : Session) : HttpResponse :=
  login_required (fun _ => .page "new_guest.html") s

/-- `/archive` (`app.py:189-193`). -/
def archive_route (s : Session) : HttpResponse :=
  login_required (fun _ => .page "archive.html") s

/-- `/guest/<id>` (`app.py:195-200`). -/
def guest_detail_route (_guest_id : Nat) (s : Session) : HttpResponse :=
  login_required (fun _ => .page "guest_detail.html") s

/-- `/guest/<id>/edit` (`app.py:202-270`), gate-level embedding. -/
def edit_guest_route (_guest_id : Nat) (s : Session) : HttpResponse :=
  login_required (fun _ => .page "new_guest.html") s

/-- `/guest/<id>/delete` (`app.py:272-289`); the handler ends by redirecting
to the archive. -/
def delete_guest_route (_guest_id : Nat) (s : Session) : HttpResponse :=
  login_required (fun _ => .redirect "archive") s

/-- `/calculate_fiscal_code` (`app.py:591-609`): the handler carries no
`login_required` decorator, so the session is never consulted. -/
def calc_fiscal_code_endpoint (req : CalcRequest) (_s : Session) :
    HttpResponse :=
  .json (calc_fiscal_code (fun l f g d p => calculate_fiscal_code l f g d p) req)

/-! ## Guest creation (`app.py:130-187`, model `src/models.py`) -/

/-- The successor of a calendar date. -/
def nextDay (d : Date) : Date :=
  if d.day < daysInMonth d.year d.month then ⟨d.year, d.month, d.day + 1⟩
  else if d.month < 12 then ⟨d.year, d.month + 1, 1⟩
  else ⟨d.year + 1, 1, 1⟩

/-- `d + timedelta(days = n)`. -/
def addDays (d : Date) (n : Nat) : Date :=
  nextDay^[n] d

/-- The `Guest` row of `src/models.py` as populated by the `new_guest`
handler (`app.py:141-161`); the `id` and `exit_date` columns are not set
there and are omitted. -/
structure Guest where
  last_name : String
  first_name : String
  gender : String
  birth_place : String
  province : String
  birth_date : Date
  permit_number : String
  permit_date : Option Date
  permit_expiry : Option Date
  health_card : String
  health_card_expiry : Option Date
  entry_date : Date
  check_in_date : Option Date
  check_out_date : Option Date
  room_number : String
  floor : String
  family_relations : String
  fiscal_code : String
  country_code : String
  deriving DecidableEq, Repr

/-- The POST form of `new_guest`.  Fields read with `request.form[k]` are
plain strings; the two read with `request.form.get(k)` may be absent. -/
structure GuestFormData where
  last_name : String
  first_name : String
  gender : String
  birth_place : String
  province : String
  birth_date : String
  permit_number : String
  permit_date : String
  health_card : String
  health_card_expiry : String
  entry_date : String
  check_in_date : Option String
  check_out_date : Option String
  room_number : String
  floor : String
  family_relations : String
  fiscal_code : String
  country_code : String

/-- `datetime.strptime(s, '%Y-%m-%d') if s else None` — the optional-date
idiom of `app.py:149-155`. -/
def parseOptDate (s : String) : Except String (Option Date) :=
  if s = "" then .ok none else (strptimeYmd s).map some

/-- The POST branch of `new_guest` (`app.py:138-185`): build the `Guest` row
from the form, parsing dates with `strptime`; any parse failure is the
exception caught at line 183, whose `str(e)` message the handler flashes
after rolling back (no row is stored).  `now` stands for `datetime.now()` at
line 153.  The row's `fiscal_code` column is set verbatim from the form field
(line 159) with no validation applied. -/
def new_guest_post (now : Date) (form : GuestFormData) : Except String Guest := do
  let birth_date ← strptimeYmd form.birth_date
  let permit_date ← parseOptDate form.permit_date
  let permit_expiry : Option Date :=
    match permit_date with
    | some pd => some (addDays pd 180)
    | none => none
  let health_card_expiry ← parseOptDate form.health_card_expiry
  let entry_date ←
    if form.entry_date = "" then pure now else strptimeYmd form.entry_date
  let check_in_date ← parseOptDate (form.check_in_date.getD "")
  let check_out_date ← parseOptDate (form.check_out_date.getD "")
  pure
    { last_name := form.last_name
      first_name := form.first_name
      gender := form.gender
      birth_place := form.birth_place
      province := form.province
      birth_date := birth_date
      permit_number := form.permit_number
      permit_date := permit_date
      permit_expiry := permit_expiry
      health_card := form.health_card
      health_card_expiry := health_card_expiry
      entry_date := entry_date
      check_in_date := check_in_date
      check_out_date := check_out_date
      room_number := form.room_number
      floor := form.floor
      family_relations := form.family_relations
      fiscal_code := form.fiscal_code
      country_code := form.country_code }

/-! ## Helper lemmas: characters and the name encoder -/

theorem upper_alnum {c : Char} (h : isUpperAZ c = true) : isAlnumChar c = true := by
  simp [isAlnumChar, h]

theorem digit_alnum {c : Char} (h : isDigit09 c = true) : isAlnumChar c = true := by
  simp [isAlnumChar, h]

theorem isUpperAZ_X : isUpperAZ 'X' = true := by decide

theorem char_toNat_ofNat {n : Nat} (h : n < 55296) : (Char.ofNat n).toNat = n := by
  unfold Char.ofNat
  rw [dif_pos (Or.inl (by omega))]
  rfl

theorem toUpperAZ_upper {c u : Char} (h : toUpperAZ c = some u) :
    isUpperAZ u = true := by
  unfold toUpperAZ at h
  split at h
  · rename_i hc
    simp only [Option.some.injEq] at h
    subst h
    simp only [Bool.and_eq_true, decide_eq_true_eq] at hc
    have h1 : 97 ≤ c.toNat := hc.1
    have h2 : c.toNat ≤ 122 := hc.2
    unfold isUpperAZ
    rw [char_toNat_ofNat (by omega)]
    simp only [Bool.and_eq_true, decide_eq_true_eq]
    omega
  · split at h
    · rename_i hu
      simp only [Option.some.injEq] at h
      subst h
      exact hu
    · exact absurd h (by simp)

theorem normalize_upper {s : String} {u : Char} (h : u ∈ normalize_name s) :
    isUpperAZ u = true := by
  unfold normalize_name at h
  rw [List.mem_filterMap] at h
  obtain ⟨c, _, hc⟩ := h
  exact toUpperAZ_upper hc

theorem take3padX_length (a b : List Char) : (take3padX a b).length = 3 := by
  unfold take3padX
  have h : ((a ++ b).take 3).length ≤ 3 := by
    simp [List.length_take]
  simp only [List.length_append, List.length_replicate]
  omega

theorem take3padX_mem {a b : List Char} {c : Char} (h : c ∈ take3padX a b) :
    c ∈ a ∨ c ∈ b ∨ c = 'X' := by
  unfold take3padX at h
  rw [List.mem_append] at h
  rcases h with h | h
  · have := List.mem_of_mem_take h
    rw [List.mem_append] at this
    tauto
  · right; right
    exact List.eq_of_mem_replicate h

theorem consonantsOf_sub {l : List Char} {c : Char} (h : c ∈ consonantsOf l) :
    c ∈ l := List.mem_of_mem_filter h

theorem vowelsOf_sub {l : List Char} {c : Char} (h : c ∈ vowelsOf l) :
    c ∈ l := List.mem_of_mem_filter h

theorem encode_surname_shape {s : String} {l : List Char}
    (h : encode_surname s = .ok l) :
    l.length = 3 ∧ l.all isUpperAZ = true := by
  unfold encode_surname at h
  split at h
  · exact absurd h (by simp)
  · rename_i hne
    simp only [Except.ok.injEq] at h
    subst h
    refine ⟨take3padX_length _ _, ?_⟩
    rw [List.all_eq_true]
    intro c hc
    rcases take3padX_mem hc with h | h | h
    · exact normalize_upper (consonantsOf_sub h)
    · exact normalize_upper (vowelsOf_sub h)
    · subst h; exact isUpperAZ_X

theorem getD_mem_of_lt {l : List Char} {i : Nat} (h : i < l.length) (d : Char) :
    l.getD i d ∈ l := by
  rw [List.getD_eq_getElem l d h]
  exact List.getElem_mem h

theorem encode_given_name_shape {s : String} {l : List Char}
    (h : encode_given_name s = .ok l) :
    l.length = 3 ∧ l.all isUpperAZ = true := by
  unfold encode_given_name at h
  split at h
  · exact absurd h (by simp)
  · rename_i hne
    split at h
    · rename_i hcons
      simp only [Except.ok.injEq] at h
      subst h
      refine ⟨rfl, ?_⟩
      rw [List.all_eq_true]
      intro c hc
      simp only [List.mem_cons, List.not_mem_nil, or_false] at hc
      have hmem : c ∈ consonantsOf (normalize_name s) := by
        rcases hc with h | h | h <;> subst h <;>
          exact getD_mem_of_lt (by omega) _
      exact normalize_upper (consonantsOf_sub hmem)
    · simp only [Except.ok.injEq] at h
      subst h
      refine ⟨take3padX_length _ _, ?_⟩
      rw [List.all_eq_true]
      intro c hc
      rcases take3padX_mem hc with h | h | h
      · exact normalize_upper (consonantsOf_sub h)
      · exact normalize_upper (vowelsOf_sub h)
      · subst h; exact isUpperAZ_X

theorem encode_surname_total {s : String} (h : normalize_name s ≠ []) :
    ∃ l, encode_surname s = .ok l := by
  unfold encode_surname
  rw [if_neg (by simpa [List.isEmpty_iff] using h)]
  exact ⟨_, rfl⟩

theorem encode_given_name_total {s : String} (h : normalize_name s ≠ []) :
    ∃ l, encode_given_name s = .ok l := by
  unfold encode_given_name
  rw [if_neg (by simpa [List.isEmpty_iff] using h)]
  split
  · exact ⟨_, rfl⟩
  · exact ⟨_, rfl⟩

/-! ## Helper lemmas: digits, dates and the checksum -/

theorem digitChar_digit {n : Nat} (h : n ≤ 9) : isDigit09 (digitChar n) = true := by
  interval_cases n <;> decide

theorem digitChar_toNat {n : Nat} (h : n ≤ 9) : (digitChar n).toNat = 48 + n := by
  interval_cases n <;> decide

theorem pad2_length (n : Nat) : (pad2 n).length = 2 := by
  unfold pad2
  split <;> rfl

theorem pad2_digits {n : Nat} (h : n ≤ 99) : (pad2 n).all isDigit09 = true := by
  unfold pad2
  split
  · rename_i h10
    simp [List.all_cons, digitChar_digit (show n ≤ 9 by omega)]
    decide
  · rename_i h10
    have hd : n / 10 ≤ 9 := by omega
    have hm : n % 10 ≤ 9 := by omega
    simp [List.all_cons, digitChar_digit hd, digitChar_digit hm]

theorem pad2_val {n : Nat} (h : n ≤ 99) : twoDigitVal (pad2 n) = n := by
  unfold pad2 twoDigitVal
  split
  · rename_i h10
    simp only [List.getD_cons_zero, List.getD_cons_succ]
    rw [digitChar_toNat (show n ≤ 9 by omega)]
    have h0 : ('0' : Char).toNat = 48 := rfl
    omega
  · rename_i h10
    have hd : n / 10 ≤ 9 := by omega
    have hm : n % 10 ≤ 9 := by omega
    simp only [List.getD_cons_zero, List.getD_cons_succ]
    rw [digitChar_toNat hd, digitChar_toNat hm]
    omega

theorem daysInMonth_le (y m : Nat) : daysInMonth y m ≤ 31 := by
  unfold daysInMonth
  split <;> first
  | omega
  | (split <;> omega)

theorem validDate_bounds {d : Date} (h : validDate d = true) :
    1 ≤ d.month ∧ d.month ≤ 12 ∧ 1 ≤ d.day ∧ d.day ≤ 31 := by
  unfold validDate at h
  simp only [Bool.and_eq_true, decide_eq_true_eq] at h
  have := daysInMonth_le d.year d.month
  omega

theorem monthLetter_mem {m : Nat} (h1 : 1 ≤ m) (h2 : m ≤ 12) :
    monthLetters.contains (monthLetter m) = true := by
  interval_cases m <;> decide

theorem monthLetter_upper {m : Nat} (h1 : 1 ≤ m) (h2 : m ≤ 12) :
    isUpperAZ (monthLetter m) = true := by
  interval_cases m <;> decide

theorem remLetter_upper {n : Nat} (h : n < 26) : isUpperAZ (remLetter n) = true := by
  interval_cases n <;> decide

theorem checkChar_upper (core : List Char) : isUpperAZ (checkChar core) = true := by
  unfold checkChar
  exact remLetter_upper (Nat.mod_lt _ (by norm_num))

theorem dayCode_len (sex : Sex) (day : Nat) : (dayCode sex day).length = 2 := by
  cases sex <;> exact pad2_length _

theorem dayCode_digits (sex : Sex) {day : Nat} (h : day ≤ 31) :
    (dayCode sex day).all isDigit09 = true := by
  cases sex
  · exact pad2_digits (by omega)
  · exact pad2_digits (by omega)

theorem length_eq_four {α : Type} {l : List α} (h : l.length = 4) :
    ∃ a b c d, l = [a, b, c, d] := by
  cases l with
  | nil => simp at h
  | cons a t =>
    have ht : t.length = 3 := by simpa using h
    obtain ⟨b, c, d, rfl⟩ := List.length_eq_three.mp ht
    exact ⟨a, b, c, d, rfl⟩

/-! ## Helper lemmas: code shape and validation -/

theorem withChecksum_length {core : List Char} (h : core.length = 15) :
    (withChecksum core).data.length = 16 := by
  simp [withChecksum, h]

theorem withChecksum_alnum {core : List Char} (h : core.all isAlnumChar = true) :
    (withChecksum core).data.all isAlnumChar = true := by
  simp [withChecksum, List.all_append, h, upper_alnum (checkChar_upper core)]

theorem validate_withChecksum {core : List Char} (h15 : core.length = 15)
    (hall : core.all isAlnumChar = true)
    (hmonth : monthLetters.contains (core.getD 8 '0') = true) :
    validate_fiscal_code (withChecksum core) = .ok := by
  rw [validate_fiscal_code]
  have hdata : (withChecksum core).data = core ++ [checkChar core] := rfl
  rw [hdata]
  rw [if_pos]
  · rw [if_pos]
    rw [List.getD_append_right _ _ _ _ (by omega), List.take_left' h15, h15]
    simp
  · refine ⟨by simp [h15], ?_, ?_⟩
    · simp [List.all_append, hall, upper_alnum (checkChar_upper core)]
    · rw [List.getD_append _ _ _ _ (by omega)]
      exact hmonth

theorem mkCode_shape {last first : String} {sex : Sex} {d : Date}
    {placeCode : String} {c : String}
    (hp4 : placeCode.data.length = 4)
    (hpa : placeCode.data.all isAlnumChar = true)
    (h : mkCode last first sex d placeCode = .ok c) :
    c.data.length = 16 ∧ c.data.all isAlnumChar = true ∧
      validate_fiscal_code c = .ok := by
  cases hs : encode_surname last with
  | error e => simp [mkCode, hs] at h
  | ok s =>
  cases hg : encode_given_name first with
  | error e => simp [mkCode, hs, hg] at h
  | ok g =>
  by_cases hv : validDate d = true
  · simp only [mkCode, hs, hg, hv, if_true, Except.ok.injEq] at h
    subst h
    obtain ⟨hm1, hm2, hd1, hd31⟩ := validDate_bounds hv
    obtain ⟨hs3, hsu⟩ := encode_surname_shape hs
    obtain ⟨hg3, hgu⟩ := encode_given_name_shape hg
    obtain ⟨s1, s2, s3, rfl⟩ := List.length_eq_three.mp hs3
    obtain ⟨g1, g2, g3, rfl⟩ := List.length_eq_three.mp hg3
    obtain ⟨y1, y2, hy⟩ := List.length_eq_two.mp (pad2_length (d.year % 100))
    have hy99 : d.year % 100 ≤ 99 := by omega
    have hyd := pad2_digits hy99
    rw [hy] at hyd
    obtain ⟨e1, e2, he⟩ := List.length_eq_two.mp (dayCode_len sex d.day)
    have hed := dayCode_digits sex hd31
    rw [he] at hed
    obtain ⟨p1, p2, p3, p4, hp⟩ := length_eq_four hp4
    rw [hp] at hpa
    simp only [List.all_cons, List.all_nil, Bool.and_eq_true, Bool.and_true]
      at hsu hgu hyd hed hpa
    simp only [yearCode, hy, he, hp]
    have h15 : ([s1, s2, s3] ++ [g1, g2, g3] ++ [y1, y2] ++ [monthLetter d.month] ++
        [e1, e2] ++ [p1, p2, p3, p4]).length = 15 := by simp
    have hall : ([s1, s2, s3] ++ [g1, g2, g3] ++ [y1, y2] ++ [monthLetter d.month] ++
        [e1, e2] ++ [p1, p2, p3, p4]).all isAlnumChar = true := by
      simp only [List.append_assoc, List.cons_append, List.nil_append, List.all_cons,
        List.all_nil, Bool.and_eq_true, Bool.and_true]
      exact ⟨upper_alnum hsu.1, upper_alnum hsu.2.1, upper_alnum hsu.2.2,
        upper_alnum hgu.1, upper_alnum hgu.2.1, upper_alnum hgu.2.2,
        digit_alnum hyd.1, digit_alnum hyd.2,
        upper_alnum (monthLetter_upper hm1 hm2),
        digit_alnum hed.1, digit_alnum hed.2,
        hpa.1, hpa.2.1, hpa.2.2.1, hpa.2.2.2⟩
    have hmonth : monthLetters.contains
        (([s1, s2, s3] ++ [g1, g2, g3] ++ [y1, y2] ++ [monthLetter d.month] ++
          [e1, e2] ++ [p1, p2, p3, p4]).getD 8 '0') = true := by
      have : ([s1, s2, s3] ++ [g1, g2, g3] ++ [y1, y2] ++ [monthLetter d.month] ++
          [e1, e2] ++ [p1, p2, p3, p4]).getD 8 '0' = monthLetter d.month := by
        simp [List.getD]
      rw [this]
      exact monthLetter_mem hm1 hm2
    exact ⟨withChecksum_length h15, withChecksum_alnum hall,
      validate_withChecksum h15 hall hmonth⟩
  · simp [mkCode, hs, hg, hv] at h

/-! ## Claim theorems -/

/-- C9: for every JSON request to `/calculate_fiscal_code` in which any of
`last_name`, `first_name`, `gender`, `birth_date`, `birth_place` is absent or
empty, the handler returns a JSON object with an `error` key, and the
fiscal-code core is never invoked (the theorem holds for every core the
handler could call). -/
theorem calc_fiscal_code_missing_fields (core : CoreFn) (req : CalcRequest)
    (h : req.last_name = none ∨ req.last_name = some "" ∨
         req.first_name = none ∨ req.first_name = some "" ∨
         req.gender = none ∨ req.gender = some "" ∨
         req.birth_date = none ∨ req.birth_date = some "" ∨
         req.birth_place = none ∨ req.birth_place = some "") :
    calc_fiscal_code core req = .err missingDataMsg := by
  unfold calc_fiscal_code
  rw [if_pos]
  rcases h with h | h | h | h | h | h | h | h | h | h <;> simp [h]

/-- Witness for C9: a request with an empty `gender` field yields the
missing-data error response. -/
theorem calc_fiscal_code_missing_fields_witness :
    calc_fiscal_code (fun l f g d p => calculate_fiscal_code l f g d p)
      ⟨some "ROSSI", some "MARIO", some "", some "1980-01-15", some "ROMA"⟩ =
      .err missingDataMsg :=
  calc_fiscal_code_missing_fields _ _ (by decide)

/-- C10: `/calculate_fiscal_code` runs regardless of the session (it is not
wrapped in `login_required`): its response is the same for every session.
Every guest CRUD route — dashboard, new_guest, archive, guest_detail,
edit_guest, delete_guest — redirects to the login page whenever `logged_in`
is absent from the session. -/
theorem routes_login_gating (s : Session) (guest_id : Nat) (req : CalcRequest) :
    (s.logged_in = false →
      dashboard_route s = .redirect "login" ∧
      new_guest_route s = .redirect "login" ∧
      archive_route s = .redirect "login" ∧
      guest_detail_route guest_id s = .redirect "login" ∧
      edit_guest_route guest_id s = .redirect "login" ∧
      delete_guest_route guest_id s = .redirect "login") ∧
    (∀ s2 : Session, calc_fiscal_code_endpoint req s =
      calc_fiscal_code_endpoint req s2) := by
  constructor
  · intro h
    simp [dashboard_route, new_guest_route, archive_route, guest_detail_route,
      edit_guest_route, delete_guest_route, login_required, h]
  · intro s2
    rfl

/-- Witness for C10: with a logged-out session, each CRUD route redirects to
the login page, and the fiscal-code endpoint answers all the same. -/
theorem routes_login_gating_witness :
    dashboard_route ⟨false⟩ = .redirect "login" ∧
    delete_guest_route 7 ⟨false⟩ = .redirect "login" ∧
    calc_fiscal_code_endpoint
      ⟨some "ROSSI", some "MARIO", some "M", some "1980-01-15", some "ROMA"⟩
      ⟨false⟩ =
    calc_fiscal_code_endpoint
      ⟨some "ROSSI", some "MARIO", some "M", some "1980-01-15", some "ROMA"⟩
      ⟨true⟩ := by
  refine ⟨?_, ?_, ?_⟩
  · exact ((routes_login_gating ⟨false⟩ 7
      ⟨some "ROSSI", some "MARIO", some "M", some "1980-01-15", some "ROMA"⟩).1
      rfl).1
  · exact ((routes_login_gating ⟨false⟩ 7
      ⟨some "ROSSI", some "MARIO", some "M", some "1980-01-15", some "ROMA"⟩).1
      rfl).2.2.2.2.2
  · exact (routes_login_gating ⟨false⟩ 7
      ⟨some "ROSSI", some "MARIO", some "M", some "1980-01-15", some "ROMA"⟩).2
      ⟨true⟩

theorem disambiguateLoop_spec (t : String → Bool) (ps : List Nat) (core : List Char) :
    (∃ c, disambiguateLoop t core ps = .ok c ∧ t c = false) ∨
      disambiguateLoop t core ps = .error .codeSpaceExhausted := by
  induction ps generalizing core with
  | nil => right; rfl
  | cons p rest ih =>
    rw [disambiguateLoop]
    by_cases ht :
        t (withChecksum (core.set p (omocodiaSub (core.getD p 'A')))) = true
    · rw [if_pos ht]
      exact ih _
    · rw [if_neg ht]
      exact Or.inl ⟨_, rfl, by simpa using ht⟩

/-- C7: the omocodia disambiguation loop always terminates — for every
candidate code and every membership predicate it either returns a free code
or reports `CodeSpaceExhaustedError`; and the scan from position 15 down to 1
makes at most 7 substitutions on a core of standard shape (letters at the
name positions 1–6, the month position 9 and the place-letter position 12). -/
theorem disambiguate_terminates (candidate : String) (is_taken : String → Bool) :
    ((∃ c, disambiguate candidate is_taken = .ok c ∧ is_taken c = false) ∨
      disambiguate candidate is_taken = .error .codeSpaceExhausted) ∧
    (∀ core : List Char,
      isDigit09 (core.getD 0 'A') = false → isDigit09 (core.getD 1 'A') = false →
      isDigit09 (core.getD 2 'A') = false → isDigit09 (core.getD 3 'A') = false →
      isDigit09 (core.getD 4 'A') = false → isDigit09 (core.getD 5 'A') = false →
      isDigit09 (core.getD 8 'A') = false → isDigit09 (core.getD 11 'A') = false →
      (digitPositionsDesc core).length ≤ 7) := by
  constructor
  · unfold disambiguate
    by_cases ht : is_taken candidate = true
    · simp only [ht, if_true]
      exact disambiguateLoop_spec _ _ _
    · left
      simp only [Bool.not_eq_true] at ht
      simp [ht]
  · intro core h0 h1 h2 h3 h4 h5 h8 h11
    have hsub : digitPositionsDesc core ⊆ [14, 13, 12, 10, 9, 7, 6] := by
      intro i hi
      unfold digitPositionsDesc at hi
      rw [List.mem_filter] at hi
      obtain ⟨hmem, hdig⟩ := hi
      simp only [List.mem_cons, List.not_mem_nil, or_false] at hmem
      rcases hmem with rfl|rfl|rfl|rfl|rfl|rfl|rfl|rfl|rfl|rfl|rfl|rfl|rfl|rfl|rfl <;>
        simp_all
    have hnd : (digitPositionsDesc core).Nodup :=
      List.Nodup.filter _ (by decide)
    exact List.Subperm.length_le (List.subperm_of_subset hnd hsub)

/-- Witness for C7: a taken candidate of standard shape is resolved to a free
code (or would exhaust the space); here the taken set is the singleton of the
candidate itself. -/
theorem disambiguate_terminates_witness :
    ((∃ c, disambiguate "RSSMRA80A15H501I"
        (fun code => code == "RSSMRA80A15H501I") = .ok c ∧
      (fun code => code == "RSSMRA80A15H501I") c = false) ∨
      disambiguate "RSSMRA80A15H501I" (fun code => code == "RSSMRA80A15H501I") =
        .error .codeSpaceExhausted) ∧
    (digitPositionsDesc ("RSSMRA80A15H501".data)).length ≤ 7 :=
  ⟨(disambiguate_terminates "RSSMRA80A15H501I" _).1,
   (disambiguate_terminates "RSSMRA80A15H501I"
      (fun code => code == "RSSMRA80A15H501I")).2 "RSSMRA80A15H501".data
     (by decide) (by decide) (by decide) (by decide) (by decide) (by decide)
     (by decide) (by decide)⟩

/-- C8: any string whose length is not 16 or containing a character outside
`[A-Z0-9]` yields `InvalidFormatError` (never `ChecksumMismatchError`);
`ChecksumMismatchError` occurs only for shape-valid codes whose 16th character
differs from the recomputed checksum of the first 15. -/
theorem validate_shape_errors (code : String) :
    ((code.data.length ≠ 16 ∨ code.data.all isAlnumChar ≠ true) →
      validate_fiscal_code code = .invalidFormatError) ∧
    (validate_fiscal_code code = .checksumMismatchError →
      (code.data.length = 16 ∧ code.data.all isAlnumChar = true ∧
        monthLetters.contains (code.data.getD 8 '0') = true) ∧
      code.data.getD 15 '0' ≠ checkChar (code.data.take 15)) := by
  constructor
  · intro h
    unfold validate_fiscal_code
    rw [if_neg]
    tauto
  · intro h
    unfold validate_fiscal_code at h
    by_cases hshape : code.data.length = 16 ∧ code.data.all isAlnumChar = true ∧
        monthLetters.contains (code.data.getD 8 '0') = true
    · rw [if_pos hshape] at h
      refine ⟨hshape, ?_⟩
      intro hck
      rw [if_pos hck] at h
      exact absurd h (by simp)
    · rw [if_neg hshape] at h
      exact absurd h (by simp)

/-- Witness for C8: a 14-character string and a 16-character string with
lowercase letters both validate as `InvalidFormatError`. -/
theorem validate_shape_errors_witness :
    validate_fiscal_code "RSSMRA80A15H50" = .invalidFormatError ∧
    validate_fiscal_code "rssmra80a15h501i" = .invalidFormatError ∧
    validate_fiscal_code "RSSMRA80A15H501Z" = .checksumMismatchError :=
  ⟨(validate_shape_errors "RSSMRA80A15H50").1 (by decide),
   (validate_shape_errors "rssmra80a15h501i").1 (by decide),
   by decide⟩

theorem getD_take4 (l : List Char) {i : Nat} (h : i < 4) (d : Char) :
    (l.take 4).getD i d = l.getD i d := by
  simp [List.getD, List.getElem?_take, h]

/-- C5: when the normalized given name has 4 or more consonants,
`encode_given_name` returns the 1st, 3rd and 4th consonant (skipping the
2nd); otherwise it coincides with the surname rule (consonants, then vowels,
then pad with `X`). -/
theorem encode_given_name_rule (s : String) :
    (∀ a b c d : Char,
      (consonantsOf (normalize_name s)).take 4 = [a, b, c, d] →
        encode_given_name s = .ok [a, c, d]) ∧
    ((consonantsOf (normalize_name s)).length < 4 →
        encode_given_name s = encode_surname s) := by
  constructor
  · intro a b c d h4
    have hlen : 4 ≤ (consonantsOf (normalize_name s)).length := by
      have hl := congrArg List.length h4
      simp only [List.length_take] at hl
      simp at hl
      omega
    have hne : ¬ (normalize_name s).isEmpty = true := by
      intro he
      rw [List.isEmpty_iff] at he
      rw [he] at hlen
      simp [consonantsOf] at hlen
    unfold encode_given_name
    rw [if_neg hne, if_pos hlen]
    have e0 : (consonantsOf (normalize_name s)).getD 0 'X' = a := by
      rw [← getD_take4 _ (by omega), h4]; rfl
    have e2 : (consonantsOf (normalize_name s)).getD 2 'X' = c := by
      rw [← getD_take4 _ (by omega), h4]; rfl
    have e3 : (consonantsOf (normalize_name s)).getD 3 'X' = d := by
      rw [← getD_take4 _ (by omega), h4]; rfl
    rw [e0, e2, e3]

  · intro hlt
    unfold encode_given_name encode_surname
    by_cases he : (normalize_name s).isEmpty = true
    · rw [if_pos he, if_pos he]
    · rw [if_neg he, if_neg he, if_neg (by omega)]

/-- Witness for C5: "ROBERTO" has consonants R, B, R, T, so its code skips
the second consonant (`RRT`); "MARIO" has fewer than 4 consonants and encodes
exactly like a surname. -/
theorem encode_given_name_rule_witness :
    encode_given_name "ROBERTO" = .ok ['R', 'R', 'T'] ∧
    encode_given_name "MARIO" = encode_surname "MARIO" :=
  ⟨(encode_given_name_rule "ROBERTO").1 'R' 'B' 'R' 'T' (by decide),
   (encode_given_name_rule "MARIO").2 (by decide)⟩

/-- C1: for every valid `PersonInput` — names that survive normalization,
a valid Gregorian birth date, a birth place found in the table (whose entry
carries a well-formed 4-character code) — `compute_fiscal_code` produces a
string of exactly 16 characters from `[A-Z0-9]`, and `validate_fiscal_code`
on that output reports Ok. -/
theorem compute_fiscal_code_roundtrip (table : List PlaceCodeEntry)
    (p : PersonInput) (entry : PlaceCodeEntry)
    (hlast : normalize_name p.last_name ≠ [])
    (hfirst : normalize_name p.first_name ≠ [])
    (hdate : validDate p.birth_date = true)
    (hplace : lookup table p.birth_place p.is_foreign_birth = some entry)
    (hcode4 : entry.code.data.length = 4)
    (hcodea : entry.code.data.all isAlnumChar = true) :
    ∃ code, compute_fiscal_code table p = .ok code ∧
      code.data.length = 16 ∧ code.data.all isAlnumChar = true ∧
      validate_fiscal_code code = .ok := by
  obtain ⟨s, hs⟩ := encode_surname_total hlast
  obtain ⟨g, hg⟩ := encode_given_name_total hfirst
  have hcomp : compute_fiscal_code table p =
      mkCode p.last_name p.first_name p.sex p.birth_date entry.code := by
    unfold compute_fiscal_code
    rw [hplace]
  cases hmk : mkCode p.last_name p.first_name p.sex p.birth_date entry.code with
  | error e => simp [mkCode, hs, hg, hdate] at hmk
  | ok code =>
    obtain ⟨h16, haln, hval⟩ := mkCode_shape hcode4 hcodea hmk
    exact ⟨code, by rw [hcomp, hmk], h16, haln, hval⟩

/-- Witness for C1: the spec §8 scenario — ROSSI / MARIO / Male /
1980-01-15 / ROMA — yields a 16-character alphanumeric code that
validates Ok. -/
theorem compute_fiscal_code_roundtrip_witness :
    ∃ code, compute_fiscal_code placeTable
        ⟨"ROSSI", "MARIO", .male, ⟨1980, 1, 15⟩, "ROMA", false⟩ = .ok code ∧
      code.data.length = 16 ∧ code.data.all isAlnumChar = true ∧
      validate_fiscal_code code = .ok :=
  compute_fiscal_code_roundtrip placeTable
    ⟨"ROSSI", "MARIO", .male, ⟨1980, 1, 15⟩, "ROMA", false⟩
    ⟨"ROMA", "H501", .municipality⟩
    (by decide) (by decide) (by decide) (by decide) (by decide) (by decide)

/-- Amended C4: the fiscal-code entry point takes the five descriptive
inputs passed at `app.py:606` — last_name, first_name, gender, birth_date,
birth_place (there is no `is_foreign_birth` parameter) — and for every such
input returns either a fiscal code (16 characters from `[A-Z0-9]`) or a
typed error. -/
theorem calculate_fiscal_code_five_args_total (last first gender : String)
    (bdate : Date) (place : String) :
    (∃ code, calculate_fiscal_code last first gender bdate place = .ok code ∧
      code.data.length = 16 ∧ code.data.all isAlnumChar = true) ∨
    (∃ e, calculate_fiscal_code last first gender bdate place = .error e) := by
  unfold calculate_fiscal_code
  cases hl : lookup_any placeTable place with
  | none => right; exact ⟨.unknownPlace, rfl⟩
  | some entry =>
    have hmem : entry ∈ placeTable := by
      unfold lookup_any at hl
      exact List.mem_of_find?_eq_some hl
    have hshape : entry.code.data.length = 4 ∧
        entry.code.data.all isAlnumChar = true := by
      have hall : ∀ e ∈ placeTable, e.code.data.length = 4 ∧
          e.code.data.all isAlnumChar = true := by decide
      exact hall entry hmem
    cases hmk : mkCode last first (if gender == "F" then .female else .male)
        bdate entry.code with
    | error e => right; exact ⟨e, hmk⟩
    | ok code =>
      left
      obtain ⟨h16, haln, _⟩ := mkCode_shape hshape.1 hshape.2 hmk
      exact ⟨code, hmk, h16, haln⟩

/-- Counterexample for C4: the entry point called at `app.py:606` (and
described in spec §9) has exactly the five descriptive parameters;
`is_foreign_birth` is not among them, so the claimed six-input signature is
false. -/
theorem calculate_fiscal_code_no_sixth_param :
    calculate_fiscal_code_params.length = 5 ∧
    ¬ ("is_foreign_birth" ∈ calculate_fiscal_code_params) := by
  constructor
  · rfl
  · decide

/-- C6: for a valid birth date, the day field is the zero-padded day of month
for Male and day-plus-40 for Female; two codes for the same person differing
only in sex agree on characters 1–9 and on the place field (characters
12–15), and their day fields (characters 10–11) differ by exactly 40. -/
theorem day_field_sex_shift (last first : String) (d : Date)
    (placeCode : String) (cM cF : String)
    (hp4 : placeCode.data.length = 4)
    (hM : mkCode last first .male d placeCode = .ok cM)
    (hF : mkCode last first .female d placeCode = .ok cF) :
    dayCode .male d.day = pad2 d.day ∧
    dayCode .female d.day = pad2 (d.day + 40) ∧
    cF.data.take 9 = cM.data.take 9 ∧
    (cF.data.drop 11).take 4 = (cM.data.drop 11).take 4 ∧
    twoDigitVal ((cF.data.drop 9).take 2) =
      twoDigitVal ((cM.data.drop 9).take 2) + 40 := by
  refine ⟨rfl, rfl, ?_⟩
  cases hs : encode_surname last with
  | error e => simp [mkCode, hs] at hM
  | ok s =>
  cases hg : encode_given_name first with
  | error e => simp [mkCode, hs, hg] at hM
  | ok g =>
  by_cases hv : validDate d = true
  · simp only [mkCode, hs, hg, hv, if_true, dayCode, Except.ok.injEq] at hM hF
    obtain ⟨hm1, hm2, hd1, hd31⟩ := validDate_bounds hv
    obtain ⟨hs3, _⟩ := encode_surname_shape hs
    obtain ⟨hg3, _⟩ := encode_given_name_shape hg
    obtain ⟨s1, s2, s3, rfl⟩ := List.length_eq_three.mp hs3
    obtain ⟨g1, g2, g3, rfl⟩ := List.length_eq_three.mp hg3
    obtain ⟨y1, y2, hy⟩ := List.length_eq_two.mp (pad2_length (d.year % 100))
    obtain ⟨e1, e2, he⟩ := List.length_eq_two.mp (pad2_length d.day)
    obtain ⟨f1, f2, hf⟩ := List.length_eq_two.mp (pad2_length (d.day + 40))
    obtain ⟨p1, p2, p3, p4, hp⟩ := length_eq_four hp4
    subst hM hF
    simp only [yearCode, hy, he, hf, hp, withChecksum]
    refine ⟨?_, ?_, ?_⟩
    · simp
    · simp
    · have h1 : twoDigitVal [f1, f2] = twoDigitVal [e1, e2] + 40 := by
        rw [← he, ← hf, pad2_val (show d.day + 40 ≤ 99 by omega),
          pad2_val (show d.day ≤ 99 by omega)]
      simpa using h1
  · simp [mkCode, hs, hg, hv] at hM

/-- Witness for C6: ROSSI / MARIO born 1980-01-15 in ROMA — the male code has
day field "15", the female code "55"; the codes agree on characters 1–9 and
on the place field. -/
theorem day_field_sex_shift_witness :
    dayCode .male 15 = pad2 15 ∧
    dayCode .female 15 = pad2 (15 + 40) ∧
    "RSSMRA80A55H501M".data.take 9 = "RSSMRA80A15H501I".data.take 9 ∧
    ("RSSMRA80A55H501M".data.drop 11).take 4 =
      ("RSSMRA80A15H501I".data.drop 11).take 4 ∧
    twoDigitVal (("RSSMRA80A55H501M".data.drop 9).take 2) =
      twoDigitVal (("RSSMRA80A15H501I".data.drop 9).take 2) + 40 :=
  day_field_sex_shift "ROSSI" "MARIO" ⟨1980, 1, 15⟩ "H501"
    "RSSMRA80A15H501I" "RSSMRA80A55H501M" (by decide) (by decide) (by decide)

theorem guest_fc_unchecked (now : Date) (form : GuestFormData) (g : Guest)
    (h : new_guest_post now form = .ok g) : g.fiscal_code = form.fiscal_code := by
  unfold new_guest_post at h
  simp only [bind, Except.bind, pure, Except.pure] at h
  cases h1 : strptimeYmd form.birth_date with
  | error e => simp [h1] at h
  | ok bd =>
  simp only [h1] at h
  cases h2 : parseOptDate form.permit_date with
  | error e => simp [h2] at h
  | ok pd =>
  simp only [h2] at h
  cases h3 : parseOptDate form.health_card_expiry with
  | error e => simp [h3] at h
  | ok hce =>
  simp only [h3] at h
  by_cases h4 : form.entry_date = ""
  · rw [if_pos h4] at h
    cases h5 : parseOptDate (form.check_in_date.getD "") with
    | error e => simp [h5] at h
    | ok cin =>
    simp only [h5] at h
    cases h6 : parseOptDate (form.check_out_date.getD "") with
    | error e => simp [h6] at h
    | ok cout =>
    simp only [h6] at h
    simp only [Except.ok.injEq] at h
    rw [← h]
  · rw [if_neg h4] at h
    cases h45 : strptimeYmd form.entry_date with
    | error e => simp [h45] at h
    | ok ed =>
    simp only [h45] at h
    cases h5 : parseOptDate (form.check_in_date.getD "") with
    | error e => simp [h5] at h
    | ok cin =>
    simp only [h5] at h
    cases h6 : parseOptDate (form.check_out_date.getD "") with
    | error e => simp [h6] at h
    | ok cout =>
    simp only [h6] at h
    simp only [Except.ok.injEq] at h
    rw [← h]


/-- Amended C2: `validate_fiscal_code` returns exactly one of Ok,
InvalidFormatError or ChecksumMismatchError for every input string, but the
guest handlers do not invoke it on the user-entered fiscal code: `new_guest`
(`app.py:159`, and likewise `edit_guest` at `app.py:243`) stores the form's
`fiscal_code` field verbatim, unchecked. -/
theorem validate_total_and_guest_code_unchecked :
    (∀ code : String, validate_fiscal_code code = .ok ∨
        validate_fiscal_code code = .invalidFormatError ∨
        validate_fiscal_code code = .checksumMismatchError) ∧
    (∀ (now : Date) (form : GuestFormData) (g : Guest),
        new_guest_post now form = .ok g → g.fiscal_code = form.fiscal_code) := by
  constructor
  · intro code
    cases h : validate_fiscal_code code <;> simp
  · exact guest_fc_unchecked

/-- Witness for C2 (amended): the stored guest's fiscal code is the form's
field, even though that field ("x") fails validation. -/
theorem validate_total_and_guest_code_unchecked_witness :
    (validate_fiscal_code "x" = .ok ∨
      validate_fiscal_code "x" = .invalidFormatError ∨
      validate_fiscal_code "x" = .checksumMismatchError) ∧
    Guest.fiscal_code
      ⟨"ROSSI", "MARIO", "M", "ROMA", "RM", ⟨1980, 1, 15⟩, "", none, none,
        "", none, ⟨2025, 1, 1⟩, none, none, "", "", "", "x", ""⟩ = "x" :=
  ⟨validate_total_and_guest_code_unchecked.1 "x",
   validate_total_and_guest_code_unchecked.2 ⟨2025, 1, 1⟩
     ⟨"ROSSI", "MARIO", "M", "ROMA", "RM", "1980-01-15", "", "", "",
       "", "", none, none, "", "", "", "x", ""⟩
     ⟨"ROSSI", "MARIO", "M", "ROMA", "RM", ⟨1980, 1, 15⟩, "", none, none,
       "", none, ⟨2025, 1, 1⟩, none, none, "", "", "", "x", ""⟩
     (by decide)⟩

/-- Counterexample for C2: the `new_guest` handler accepts and stores the
fiscal code "x" from the form although `validate_fiscal_code` rejects it as
`InvalidFormatError` — the user-entered code is stored unchecked, not run
through the validator. -/
theorem guest_stores_invalid_fiscal_code :
    (new_guest_post ⟨2025, 1, 1⟩
        ⟨"ROSSI", "MARIO", "M", "ROMA", "RM", "1980-01-15", "", "", "",
          "", "", none, none, "", "", "", "x", ""⟩).map Guest.fiscal_code =
      .ok "x" ∧
    validate_fiscal_code "x" = .invalidFormatError := by
  exact ⟨by decide, by decide⟩

/-- Amended C3: every run of the `/calculate_fiscal_code` handler either
returns a JSON object with an `error` key — the failure surfaced as the
stringified message of a generic exception caught at `app.py:608` — or
returns a fiscal code that the core actually produced (so the handler never
recovers locally from a failure). -/
theorem calc_route_err_or_core_ok (core : CoreFn) (req : CalcRequest) :
    (∃ m, calc_fiscal_code core req = .err m) ∨
    (∃ fc d, calc_fiscal_code core req = .fiscalCode fc ∧
      strptimeYmd (req.birth_date.getD "") = .ok d ∧
      core (req.last_name.getD "") (req.first_name.getD "")
        (req.gender.getD "") d (req.birth_place.getD "") = .ok fc) := by
  by_cases hif : req.last_name.getD "" = "" ∨ req.first_name.getD "" = "" ∨
      req.gender.getD "" = "" ∨ req.birth_date.getD "" = "" ∨
      req.birth_place.getD "" = ""
  · left
    exact ⟨missingDataMsg, by simp [calc_fiscal_code, hif]⟩
  · cases hd : strptimeYmd (req.birth_date.getD "") with
    | error m =>
      left
      exact ⟨m, by simp [calc_fiscal_code, hif, hd]⟩
    | ok d =>
      cases hc : core (req.last_name.getD "") (req.first_name.getD "")
          (req.gender.getD "") d (req.birth_place.getD "") with
      | ok fc =>
        right
        exact ⟨fc, d, by simp [calc_fiscal_code, hif, hd, hc], rfl, hc⟩
      | error e =>
        left
        exact ⟨pyErrStr e, by simp [calc_fiscal_code, hif, hd, hc]⟩

/-- Counterexample for C3: on a malformed birth date the handler's response
carries the stringified `ValueError` of `strptime` — a generic exception
message — which is none of the six typed error kinds; the failure is not
reported as a typed failure. -/
theorem calc_route_stringifies_exception :
    calc_fiscal_code (fun l f g d p => calculate_fiscal_code l f g d p)
      ⟨some "ROSSI", some "MARIO", some "M", some "bad", some "ROMA"⟩ =
      .err "time data 'bad' does not match format '%Y-%m-%d'" ∧
    (Error.allKinds.all (fun e =>
      !(pyErrStr e == "time data 'bad' does not match format '%Y-%m-%d'"))) =
      true := by
  exact ⟨by decide, by decide⟩

end Ccv
